import Mathlib

/-
  Verification development for the SKLOE `*.out` file reader
  (`libskloe.py`, class `Skloe_OutFile`).

  The development shallowly embeds the two cores of the program:

  * the binary record decoder (`Skloe_OutFile.read`): the byte stream is a
    `List Nat` (one entry per byte); `f_in.read(n)` / `tell` / `seek` become
    explicit position passing (`sread`); `struct.unpack` failures (buffer
    length different from the format size) and the numpy/pandas shape
    failures of the post-processing loops become `Except` errors;

  * the unit-scaling engine (`Skloe_OutFile.to_fullscale` with its inner
    recursive `findtrans`): unit tokens are `String`s, the elementary
    dictionary and all derived factors are exact rationals, and the
    model→prototype multiplication is over `ℝ` (Python's `**` on floats is
    modelled by `Real.rpow`, float literals such as `0.001` by the exact
    rationals they denote).

  Modelling conventions, stated once:
  * int16/int32 fields are decoded little-endian two's complement into `ℤ`;
    float32 fields are decoded as exact IEEE-754 binary32 values into `ℚ`
    (infinities/NaNs, which no claim touches, are mapped to 0);
  * Python exceptions (struct.error, ZeroDivisionError, numpy reshape /
    pandas shape errors, IndexError) are all modelled as `Except.error`
    with a tag naming the failing step;
  * a negative channel count in the file header or a negative per-segment
    channel count is rejected by the model (`DErr.negCount`); in the source
    these produce degenerate `f.read(negative)` calls whose behaviour no
    claim depends on;
  * `RawSeg.headerOffset`, `RawSeg.rawStats` and `RawSeg.rawRows` are
    recorder ("ghost") fields: they record where a segment header was read
    and which raw values were unpacked, before coefficient scaling.
-/

/-- Little-endian two's-complement decode of 2 bytes (struct format `h`). -/
def int16 (b0 b1 : Nat) : ℤ :=
  let u : Nat := b0 % 256 + 256 * (b1 % 256)
  if u < 32768 then (u : ℤ) else (u : ℤ) - 65536

/-- Little-endian two's-complement decode of 4 bytes (struct format `l`). -/
def int32 (b0 b1 b2 b3 : Nat) : ℤ :=
  let u : Nat := b0 % 256 + 256 * (b1 % 256) + 65536 * (b2 % 256) + 16777216 * (b3 % 256)
  if u < 2147483648 then (u : ℤ) else (u : ℤ) - 4294967296

/-- Exact value of an IEEE-754 binary32 bit pattern, as a rational
(struct format `f`).  Infinities and NaNs (exponent 255) are mapped to 0;
no claim evaluates such a pattern. -/
def float32OfBits (u : Nat) : ℚ :=
  let s : ℕ := u / 2 ^ 31 % 2
  let e : ℕ := u / 2 ^ 23 % 256
  let m : ℕ := u % 2 ^ 23
  let mag : ℚ :=
    if e = 0 then (m : ℚ) / 2 ^ 149
    else if e = 255 then 0
    else ((2 ^ 23 + m : ℕ) : ℚ) * 2 ^ e / 2 ^ 150
  if s = 1 then -mag else mag

/-- Little-endian float32 decode of a 4-byte buffer. -/
def float32OfBytes (bs : List Nat) : ℚ :=
  float32OfBits (bs.getD 0 0 % 256 + 256 * (bs.getD 1 0 % 256)
    + 65536 * (bs.getD 2 0 % 256) + 16777216 * (bs.getD 3 0 % 256))

/-- Python's `str.rstrip()` on the decoded fixed-width field, at byte level:
drop trailing ASCII whitespace. -/
def rstripWs (l : List Nat) : List Nat :=
  (l.reverse.dropWhile (fun b => b == 32 || b == 9 || b == 10 || b == 11 || b == 12 || b == 13)).reverse

/-- `f_in.read n` at position `pos`: the bytes actually obtained (possibly
fewer than `n` at end of stream) and the new position. -/
def sread (bs : List Nat) (pos n : Nat) : List Nat × Nat :=
  let buf := (bs.drop pos).take n
  (buf, pos + buf.length)

/-- `f_in.seek(128 * math.ceil(p / 128))`: the next multiple of 128 at or
after `p`. -/
def alignPos (p : Nat) : Nat := 128 * ((p + 127) / 128)

/-- Failure tags for the decoder; each names the Python exception site it
models (struct.error on a short buffer, ZeroDivisionError in the duration
format, numpy reshape / pandas shape errors, IndexError on selection). -/
inductive DErr where
  | headTrunc | negCount | segTrunc | rowTrunc | zeroDiv | statShape | dataShape | selOut
deriving DecidableEq, Repr

/-- The `s_seg` constructor argument: `'all'` or a segment index. -/
inductive Selector where
  | all
  | one (k : Nat)
deriving DecidableEq, Repr

/-- One segment as read from the byte stream (the body of the
`for i_seg in range(self.segN)` loop), before post-processing. -/
structure RawSeg where
  /-- position at which the 256-byte segment header was read (ghost). -/
  headerOffset : Nat
  segIndex : ℤ
  /-- `seg_chn = seg_info[i_seg][1]`. -/
  segChn : ℤ
  /-- `seg_info[i_seg][2]`. -/
  rawSampleCount : ℤ
  /-- `samp_num[i_seg] = seg_info[i_seg][2] - 5`. -/
  sampNum : ℤ
  /-- the flat statistics tuple `seg_statistic[i_seg]`:
  `segChn` int16 means, `segChn` float32 stds, `2*segChn` int16 max/min. -/
  rawStats : List ℚ
  /-- the raw int16 sample rows `data_buf[i_seg]` actually read. -/
  rawRows : List (List ℤ)
deriving DecidableEq, Repr, Inhabited

/-- The file header plus the three/four channel tables. -/
structure HeadInfo where
  marker : ℤ
  chN : ℤ
  fs : ℤ
  segN : ℤ
  chNames : List (List Nat)
  chUnits : List (List Nat)
  chCoef : List ℚ
  chID : List ℤ
  /-- stream position after the tables. -/
  pos : Nat
deriving DecidableEq, Repr, Inhabited

/-- The decoded file: the attributes `Skloe_OutFile.read` leaves on the
object.  `stats` is `seg_statistic` (per segment, per channel the scaled
(mean, std, max, min)), `data` the scaled sample rows, `times` the
DataFrame index of each segment's data. -/
structure DecodedFile where
  recordMarker : ℤ
  chN : ℤ
  fs : ℤ
  segN : ℤ
  chNames : List (List Nat)
  chUnits : List (List Nat)
  chCoef : List ℚ
  chID : List ℤ
  /-- ghost: the raw segments in file order, untouched by segment selection. -/
  rawSegs : List RawSeg
  stats : List (List (ℚ × ℚ × ℚ × ℚ))
  data : List (List (List ℚ))
  times : List (List ℚ)
  nSamples : List ℤ
deriving DecidableEq, Repr, Inhabited

/-- File header (`'=hhlhh2s2s240s'`) and channel name/unit/coefficient/ID
tables.  `index, self.chN, self.fs, self.segN = tmp[0], tmp[1], tmp[3], tmp[4]`:
the int32 at offset 4 is skipped, `fs` and `segN` sit at offsets 8 and 10. -/
def readHeadTables (bs : List Nat) : Except DErr HeadInfo :=
  let r0 := sread bs 0 256
  if r0.1.length = 256 then
    let marker := int16 (r0.1.getD 0 0) (r0.1.getD 1 0)
    let chNI := int16 (r0.1.getD 2 0) (r0.1.getD 3 0)
    let fs := int16 (r0.1.getD 8 0) (r0.1.getD 9 0)
    let segN := int16 (r0.1.getD 10 0) (r0.1.getD 11 0)
    if 0 ≤ chNI then
      let c := chNI.toNat
      let rN := sread bs r0.2 (c * 16)
      if rN.1.length = c * 16 then
        let rU := sread bs rN.2 (c * 4)
        if rU.1.length = c * 4 then
          let rC := sread bs rU.2 (c * 4)
          if rC.1.length = c * 4 then
            let names := (List.range c).map (fun i => rstripWs ((rN.1.drop (16 * i)).take 16))
            let units := (List.range c).map (fun i => rstripWs ((rU.1.drop (4 * i)).take 4))
            let coefs := (List.range c).map (fun i => float32OfBytes ((rC.1.drop (4 * i)).take 4))
            if marker < -1 then
              let rI := sread bs rC.2 (c * 2)
              if rI.1.length = c * 2 then
                .ok ⟨marker, chNI, fs, segN, names, units, coefs,
                  (List.range c).map (fun i => int16 (rI.1.getD (2 * i) 0) (rI.1.getD (2 * i + 1) 0)),
                  rI.2⟩
              else .error .headTrunc
            else .ok ⟨marker, chNI, fs, segN, names, units, coefs, [], rC.2⟩
          else .error .headTrunc
        else .error .headTrunc
      else .error .headTrunc
    else .error .negCount
  else .error .headTrunc

/-- The sample-row loop of one segment: `for item in range(samp_num)`,
`buf = f_in.read(seg_chn * 2)`, `if not buf: break`, else unpack one row.
An empty read breaks (tolerated), a short non-empty read is a
struct.error. -/
def readRows (bs : List Nat) (sc : Nat) : Nat → Nat → Except DErr (List (List ℤ) × Nat)
  | pos, 0 => .ok ([], pos)
  | pos, n + 1 =>
    let r := sread bs pos (sc * 2)
    if r.1.length = 0 then .ok ([], pos)
    else if r.1.length = sc * 2 then
      match readRows bs sc r.2 n with
      | .error e => .error e
      | .ok (rest, p2) =>
        .ok (((List.range sc).map (fun i => int16 (r.1.getD (2 * i) 0) (r.1.getD (2 * i + 1) 0))) :: rest, p2)
    else .error .rowTrunc

/-- Body of one segment-loop iteration, reading from `tl`, the byte stream
already positioned (by the 128-byte-boundary seek) at the segment header:
the 256-byte segment header (`'=hhlBBBBBBBB240s'`), the statistics block
(`seg_chn` int16 + `seg_chn` float32 + `2*seg_chn` int16), then the sample
rows.  `hpos` is the absolute offset of `tl`, used only to record the
header offset and to return the absolute final position. -/
def readSegFrom (tl : List Nat) (hpos : Nat) : Except DErr (RawSeg × Nat) :=
  let rh := sread tl 0 256
  if rh.1.length = 256 then
    let segIndex := int16 (rh.1.getD 0 0) (rh.1.getD 1 0)
    let segChn := int16 (rh.1.getD 2 0) (rh.1.getD 3 0)
    let rawCnt := int32 (rh.1.getD 4 0) (rh.1.getD 5 0) (rh.1.getD 6 0) (rh.1.getD 7 0)
    if 0 ≤ segChn then
      let sc := segChn.toNat
      let rs := sread tl rh.2 (sc * 10)
      if rs.1.length = sc * 10 then
        let rawStats : List ℚ :=
          ((List.range sc).map (fun i => ((int16 (rs.1.getD (2 * i) 0) (rs.1.getD (2 * i + 1) 0) : ℤ) : ℚ)))
          ++ ((List.range sc).map (fun i => float32OfBytes ((rs.1.drop (2 * sc + 4 * i)).take 4)))
          ++ ((List.range (2 * sc)).map (fun i =>
               ((int16 (rs.1.getD (6 * sc + 2 * i) 0) (rs.1.getD (6 * sc + 2 * i + 1) 0) : ℤ) : ℚ)))
        match readRows tl sc rs.2 (rawCnt - 5).toNat with
        | .error e => .error e
        | .ok (rows, p2) => .ok (⟨hpos, segIndex, segChn, rawCnt, rawCnt - 5, rawStats, rows⟩, hpos + p2)
      else .error .segTrunc
    else .error .negCount
  else .error .segTrunc

/-- One iteration of the segment loop: `p_cur = f_in.tell()`,
`f_in.seek(128 * math.ceil(p_cur / 128))` — the padding bytes in
`[pos, alignPos pos)` are skipped by the seek and never read, which is
why the iteration only depends on `bs.drop (alignPos pos)`. -/
def readSeg (bs : List Nat) (pos : Nat) : Except DErr (RawSeg × Nat) :=
  readSegFrom (bs.drop (alignPos pos)) (alignPos pos)

/-- `for i_seg in range(self.segN)`: read `n` segments starting at `pos`. -/
def readSegs (bs : List Nat) : Nat → Nat → Except DErr (List RawSeg)
  | _, 0 => .ok []
  | pos, n + 1 =>
    match readSeg bs pos with
    | .error e => .error e
    | .ok (r, p2) =>
      match readSegs bs p2 n with
      | .error e => .error e
      | .ok rest => .ok (r :: rest)

/-- Statistics post-processing of one segment (lines 158-167):
`np.reshape(..., (4, self.chN)).transpose()` requires the flat tuple
(length `4 * seg_chn`) to reshape to `(4, chN)`, then channel `m`'s
row `(mean, std, max, min)` is multiplied by `chCoef[m]`. -/
def processStats (c : Nat) (coef : List ℚ) (r : RawSeg) : Except DErr (List (ℚ × ℚ × ℚ × ℚ)) :=
  if r.segChn.toNat = c then
    .ok ((List.range c).map (fun m =>
      (r.rawStats.getD m 0 * coef.getD m 0,
       r.rawStats.getD (c + m) 0 * coef.getD m 0,
       r.rawStats.getD (2 * c + m) 0 * coef.getD m 0,
       r.rawStats.getD (3 * c + m) 0 * coef.getD m 0)))
  else .error .statShape

/-- Data post-processing of one segment (lines 170-177): column `m` of the
row matrix is multiplied by `chCoef[m]`, and the DataFrame is built with
index `np.arange(1, samp_num + 1) / fs`.  numpy/pandas reject an empty
2-D array when `chN > 0` and a row count different from `samp_num`
(`Shape of passed values ... indices imply ...`); both are `.dataShape`. -/
def processData (c : Nat) (coef : List ℚ) (fs : ℤ) (r : RawSeg) :
    Except DErr (List (List ℚ) × List ℚ) :=
  let k := r.rawRows.length
  let idx : List ℚ := (List.range r.sampNum.toNat).map (fun i : ℕ => ((i : ℚ) + 1) / (fs : ℚ))
  if k = 0 then
    if c = 0 ∧ r.sampNum.toNat = 0 then .ok ([], idx) else .error .dataShape
  else
    if r.segChn.toNat = c ∧ k = r.sampNum.toNat then
      .ok (r.rawRows.map (fun row =>
        (List.range c).map (fun m => ((row.getD m 0 : ℤ) : ℚ) * coef.getD m 0)), idx)
    else .error .dataShape

/-- Segment selection (lines 179-185): `'all'` keeps everything; an integer
`k` reduces `data` / `seg_statistic` to the single segment `k` and sets
`segN = 1` (`self.data[k]` raises IndexError when `k` is out of range).
The ghost `rawSegs` field is not reduced. -/
def applySel (sel : Selector) (f : DecodedFile) : Except DErr DecodedFile :=
  match sel with
  | .all => .ok f
  | .one k =>
    if k < f.data.length then
      .ok { f with
        data := [f.data.getD k []],
        stats := [f.stats.getD k []],
        times := [f.times.getD k []],
        nSamples := [f.nSamples.getD k 0],
        segN := 1 }
    else .error .selOut

/-- The full decoder `Skloe_OutFile.read` (with the `s_seg` selection from
`__init__`):  header and channel tables, segment loop, the
`samp_num[n] / self.fs` duration format (ZeroDivisionError when `fs = 0`
and at least one segment exists), statistics post-processing for every
segment, data post-processing for every segment, then selection. -/
def skloeRead (bs : List Nat) (sel : Selector) : Except DErr DecodedFile :=
  match readHeadTables bs with
  | .error e => .error e
  | .ok ht =>
    match readSegs bs ht.pos ht.segN.toNat with
    | .error e => .error e
    | .ok raws =>
      if 0 < ht.segN.toNat ∧ ht.fs = 0 then .error .zeroDiv
      else
        match raws.mapM (processStats ht.chN.toNat ht.chCoef) with
        | .error e => .error e
        | .ok stats =>
          match raws.mapM (processData ht.chN.toNat ht.chCoef ht.fs) with
          | .error e => .error e
          | .ok packs =>
            applySel sel
              { recordMarker := ht.marker, chN := ht.chN, fs := ht.fs, segN := ht.segN,
                chNames := ht.chNames, chUnits := ht.chUnits, chCoef := ht.chCoef,
                chID := ht.chID, rawSegs := raws, stats := stats,
                data := packs.map (fun p => p.1), times := packs.map (fun p => p.2),
                nSamples := raws.map (fun r => r.sampNum) }

/-- Output index `n` of the decoded file corresponds to raw segment
`srcIdx sel n`. -/
def srcIdx (sel : Selector) (n : Nat) : Nat :=
  match sel with
  | .all => n
  | .one k => k

/-
  ------------------------------------------------------------------
  Unit-scaling engine: `to_fullscale` and the recursive `findtrans`.
  ------------------------------------------------------------------
-/

/-- A resolved unit: target token, unit factor, rho exponent, lam
exponent (`[trans[0], trans[1][0], trans[1][1], trans[1][2]]`). -/
abbrev UTrans := String × ℚ × ℚ × ℚ

/-- The elementary dictionary `trans_dic` built inside `to_fullscale`
(`g` is the caller-supplied gravity).  The keys are exactly the source's:
note that the key for newtons is the upper-case string `"N"`, while every
lookup happens on a `.lower()`-ed token. -/
def transDic (g : ℚ) (u : String) : Option UTrans :=
  if u = "kg" then some ("kN", g * (1 / 1000), 1, 3)
  else if u = "cm" then some ("m", 1 / 100, 0, 1)
  else if u = "mm" then some ("m", 1 / 1000, 0, 1)
  else if u = "m" then some ("m", 1, 0, 1)
  else if u = "s" then some ("s", 1, 0, 1 / 2)
  else if u = "deg" then some ("deg", 1, 0, 0)
  else if u = "rad" then some ("rad", 1, 0, 0)
  else if u = "N" then some ("kN", 1 / 1000, 1, 3)
  else none

/-- `unit.lower()`, character-wise (`Char.toLower`, ASCII case folding —
the source's tokens are 4-byte ASCII fields). -/
def lowerStr (s : String) : String := String.mk (s.data.map Char.toLower)

/-- `c in s` for a single-character needle. -/
def hasChar (s : String) (c : Char) : Bool := s.data.contains c

/-- `s.split(c)` on a character list, Python semantics for a
single-character separator (`"".split` gives `[""]`, empty pieces kept). -/
def splitCharList (c : Char) : List Char → List (List Char)
  | [] => [[]]
  | a :: rest =>
    if a = c then [] :: splitCharList c rest
    else
      match splitCharList c rest with
      | [] => [[a]]
      | h :: t => (a :: h) :: t

/-- `s.split(c)` for a single-character separator. -/
def splitStr (c : Char) (s : String) : List String :=
  (splitCharList c s.data).map String.mk

/-- `s[-1]` (the guard `s ≠ ""` is checked before use). -/
def lastChar (s : String) : Char := s.data.getLastD 'A'

/-- `s[0:-1]`. -/
def dropLastStr (s : String) : String := String.mk s.data.dropLast

/-- The division rule of `findtrans`:
`[tU[0] + '/' + tL[0], tU[1][0]/tL[1][0], tU[1][1]-tL[1][1], tU[1][2]-tL[1][2]]`. -/
def combineDiv (tu tl : UTrans) : UTrans :=
  (tu.1 ++ "/" ++ tl.1, tu.2.1 / tl.2.1, tu.2.2.1 - tl.2.2.1, tu.2.2.2 - tl.2.2.2)

/-- The dot-compound rule of `findtrans`: join the targets with `'.'`,
multiply the factors (starting from `1.0`), sum the exponents. -/
def combineDot (ts : List UTrans) : UTrans :=
  (String.mk (List.intercalate ['.'] (ts.map (fun t => t.1.data))),
   ts.foldl (fun a t => a * t.2.1) 1,
   ts.foldl (fun a t => a + t.2.2.1) 0,
   ts.foldl (fun a t => a + t.2.2.2) 0)

/-- The power-suffix rule of `findtrans` for a dictionary entry `t` and the
trailing digit `n`: `[t[0] + str(n), t[1][0]**n, t[1][1]*n, t[1][2]*n]`. -/
def combinePow (t : UTrans) (n : Nat) : UTrans :=
  (t.1 ++ toString n, t.2.1 ^ n, t.2.2.1 * (n : ℚ), t.2.2.2 * (n : ℚ))

/-- Fuelled body of the recursive `findtrans(trans_dic, unit)`.  The token
is lower-cased, then the rules are tried in the source's order: exact
dictionary hit, division `"A/B"` (exactly two parts: Python's
`unitUpper, unitLower = unit.split('/')` raises on any other arity),
dot compound `"A.B..."`, power suffix (trailing decimal digit on an
otherwise-dictionary token).  Every failure path of the source (the
`warnings.warn` + implicit `None`, the `ValueError` of the two-part
unpacking, the `IndexError` of `unit[-1]` on an empty token, and the
`TypeError` raised at the caller when `None` flows into a subscript)
is modelled as `none`.  One unit of fuel is consumed per recursion; the
split parts are strictly shorter than the token, so `length + 1` fuel
(see `findtrans`) always suffices. -/
def findtransF (g : ℚ) : Nat → String → Option UTrans
  | 0, _ => none
  | fuel + 1, unit0 =>
    let unit := lowerStr unit0
    match transDic g unit with
    | some t => some t
    | none =>
      if hasChar unit '/' then
        match splitStr '/' unit with
        | [a, b] =>
          match findtransF g fuel a, findtransF g fuel b with
          | some tu, some tl => some (combineDiv tu tl)
          | _, _ => none
        | _ => none
      else if hasChar unit '.' then
        match (splitStr '.' unit).mapM (findtransF g fuel) with
        | some ts => some (combineDot ts)
        | none => none
      else if unit ≠ "" ∧ (lastChar unit).isDigit then
        match transDic g (dropLastStr unit) with
        | some t => some (combinePow t ((lastChar unit).toNat - 48))
        | none => none
      else none

/-- `findtrans(trans_dic, unit)`: resolution of one unit token. -/
def findtrans (g : ℚ) (unit : String) : Option UTrans :=
  findtransF g (unit.length + 1) unit

/-- The object state `to_fullscale` reads and mutates.  `chCoef` is the
decode-time `Coef` column (deleted by the conversion), `coeffUnit` /
`coeffRho` / `coeffLam` the columns the conversion adds, `rhoStored` /
`lamStored` the `self.rho` / `self.lam` attributes (absent before the
first call).  A data segment is the column view of the DataFrame
`self.data[i]`: a list of (column name, column values). -/
structure OutFileState where
  scale : String
  rhoStored : Option ℝ
  lamStored : Option ℝ
  chNames : List String
  chUnits : List String
  chCoef : Option (List ℝ)
  coeffUnit : Option (List ℚ)
  coeffRho : Option (List ℚ)
  coeffLam : Option (List ℚ)
  segN : Nat
  data : List (List (String × List ℝ))
  stats : List (List (ℝ × ℝ × ℝ × ℝ))

/-- Result of a `to_fullscale` call: the object state after the call (or
after the exception escaped), whether a unit-resolution failure was raised
(`TypeError` at `trans_temp[0]` in the source), and whether the
already-upscaled guard fired. -/
structure TFResult where
  state : OutFileState
  raised : Bool
  already : Bool

/-- The per-channel full-scale factor
`C = C1 * rho ** C2 * lam ** C3` (real powers, `Real.rpow`). -/
noncomputable def Cfac (rho lam : ℝ) (t : UTrans) : ℝ :=
  ((t.2.1 : ℚ) : ℝ) * rho ^ ((t.2.2.1 : ℚ) : ℝ) * lam ^ ((t.2.2.2 : ℚ) : ℝ)

/-- `self.data[idx1][name] *= C`: multiply every column of the segment
whose name is `nm` by `c`. -/
def scaleCol (nm : String) (c : ℝ) (seg : List (String × List ℝ)) : List (String × List ℝ) :=
  seg.map (fun col => if col.1 = nm then (col.1, col.2.map (fun x => x * c)) else col)

/-- `for idx2, name in enumerate(self.chInfo['Name'])`: apply `scaleCol`
for each channel in order, with `i` the index of the first channel. -/
def scaleSegGo (cs : Nat → ℝ) : Nat → List String → List (String × List ℝ) → List (String × List ℝ)
  | _, [], seg => seg
  | i, nm :: nms, seg => scaleSegGo cs (i + 1) nms (scaleCol nm (cs i) seg)

/-- `mapWithIndexGo f i [a, b, ...] = [f i a, f (i+1) b, ...]`. -/
def mapWithIndexGo (f : Nat → α → α) : Nat → List α → List α
  | _, [] => []
  | i, a :: l => f i a :: mapWithIndexGo f (i + 1) l

/-- `Skloe_OutFile.to_fullscale(rho, lam, g)` (lines 320-416).  If the
scale state is already `'prototype'` the guard fires and nothing changes.
Otherwise `self.rho`, `self.lam` and `self.scale = 'prototype'` are set
FIRST; then every channel unit is resolved (`findtrans`); a failure
escapes at that point with the channel table, statistics and data
untouched.  On success the channel table is rewritten (units replaced by
target tokens, `Coef` deleted, the three coefficient columns added) and,
for every segment index below `segN`, every data column named like
channel `idx2` is multiplied by `C = C1 * rho ** C2 * lam ** C3`.
The statistics (`self.seg_statistic`) are never touched. -/
noncomputable def to_fullscale (f : OutFileState) (rho lam : ℝ) (g : ℚ) : TFResult :=
  if f.scale = "prototype" then ⟨f, false, true⟩
  else
    let f1 := { f with rhoStored := some rho, lamStored := some lam, scale := "prototype" }
    match f.chUnits.mapM (findtrans g) with
    | none => ⟨f1, true, false⟩
    | some ts =>
      let cs : Nat → ℝ := fun i => Cfac rho lam (ts.getD i default)
      let f2 := { f1 with
        chUnits := ts.map (fun t : UTrans => t.1),
        coeffUnit := some (ts.map (fun t : UTrans => t.2.1)),
        coeffRho := some (ts.map (fun t : UTrans => t.2.2.1)),
        coeffLam := some (ts.map (fun t : UTrans => t.2.2.2)),
        chCoef := none }
      ⟨{ f2 with
          data := mapWithIndexGo
            (fun s seg => if s < f.segN then scaleSegGo cs 0 f.chNames seg else seg) 0 f2.data },
        false, false⟩

/-- `Skloe_OutFile.fix_unit(c_chN, unit)`: overwrite one channel's unit
string (lines 313-318). -/
def fix_unit (f : OutFileState) (c : Nat) (u : String) : OutFileState :=
  { f with chUnits := f.chUnits.set c u }

/-
  ------------------------------------------------------------------
  A concrete synthetic file (the spec's end-to-end example): 2 channels
  named "A"/"B" with units "m"/"kg" and coefficients 1.0/2.0, fs = 10,
  one segment with rawSampleCount = 8 (hence 3 sample rows).
  ------------------------------------------------------------------
-/

/-- 256-byte file header: marker 0, chN 2, (unused int32), fs 10, segN 1,
month "01", day "02". -/
def exHeader : List Nat :=
  [0, 0, 2, 0] ++ [0, 0, 0, 0] ++ [10, 0] ++ [1, 0] ++ [48, 49] ++ [48, 50] ++ List.replicate 240 0

/-- Channel name table: "A" and "B", space-padded to 16 bytes. -/
def exNames : List Nat :=
  [65] ++ List.replicate 15 32 ++ [66] ++ List.replicate 15 32

/-- Channel unit table: "m   " and "kg  ". -/
def exUnits : List Nat := [109, 32, 32, 32] ++ [107, 103, 32, 32]

/-- Channel coefficients 1.0 and 2.0 as little-endian float32. -/
def exCoefs : List Nat := [0, 0, 128, 63] ++ [0, 0, 0, 64]

/-- 256-byte segment header at offset 384: segIndex 0, seg_chn 2,
rawSampleCount 8 (so samp_num = 3), zero time fields and note. -/
def exSegHead : List Nat :=
  [0, 0, 2, 0, 8, 0, 0, 0] ++ List.replicate 8 0 ++ List.replicate 240 0

/-- Statistics block: int16 means [1, 2], float32 stds [1.0, 1.0],
int16 maxes [3, 4], int16 mins [0, 1]. -/
def exStats : List Nat :=
  [1, 0, 2, 0] ++ [0, 0, 128, 63, 0, 0, 128, 63] ++ [3, 0, 4, 0] ++ [0, 0, 1, 0]

/-- Three int16 sample rows [[10, 5], [20, 6], [30, 7]]. -/
def exRows : List Nat := [10, 0, 5, 0, 20, 0, 6, 0, 30, 0, 7, 0]

/-- The full 672-byte example file: tables end at offset 304, 80 bytes of
padding reach the 128-byte boundary 384 where the segment header sits. -/
def exBytes : List Nat :=
  exHeader ++ exNames ++ exUnits ++ exCoefs ++ List.replicate 80 0 ++ exSegHead ++ exStats ++ exRows

/-- `exBytes` with the third sample row cut off: the stream ends exactly
at a row boundary inside segment 0's sample block. -/
def exBytesTrunc : List Nat :=
  exHeader ++ exNames ++ exUnits ++ exCoefs ++ List.replicate 80 0 ++ exSegHead ++ exStats
    ++ [10, 0, 5, 0, 20, 0, 6, 0]

/-- The decoded example file (decoding succeeds, see the claim witnesses). -/
def exVal : DecodedFile := ((skloeRead exBytes Selector.all).toOption).getD default

/-
  ------------------------------------------------------------------
  Helper lemmas.
  ------------------------------------------------------------------
-/

theorem exceptMapM_ok {α β : Type} (g : α → Except DErr β) :
    ∀ (l : List α) (l2 : List β), l.mapM g = Except.ok l2 →
      l2.length = l.length ∧
      ∀ (n : Nat) a b, l[n]? = some a → l2[n]? = some b → g a = Except.ok b := by
  intro l
  induction l with
  | nil =>
    intro l2 h
    have h2 : (Except.ok ([] : List β) : Except DErr (List β)) = Except.ok l2 := h
    injection h2 with h3
    subst h3
    exact ⟨rfl, by intro n a b ha; simp at ha⟩
  | cons a l ih =>
    intro l2 h
    rw [List.mapM_cons] at h
    cases hb : g a with
    | error e =>
      rw [hb] at h
      have h2 : (Except.error e : Except DErr (List β)) = Except.ok l2 := h
      cases h2
    | ok b =>
      rw [hb] at h
      cases hbs : List.mapM g l with
      | error e =>
        rw [hbs] at h
        have h2 : (Except.error e : Except DErr (List β)) = Except.ok l2 := h
        cases h2
      | ok bs =>
        rw [hbs] at h
        have h2 : (Except.ok (b :: bs) : Except DErr (List β)) = Except.ok l2 := h
        injection h2 with h3
        subst h3
        obtain ⟨hlen, hpt⟩ := ih bs hbs
        refine ⟨by simp [hlen], ?_⟩
        intro n x y hx hy
        cases n with
        | zero =>
          simp at hx hy
          subst hx; subst hy
          exact hb
        | succ n2 =>
          simp at hx hy
          exact hpt n2 x y hx hy

theorem mapWithIndexGo_getElem? {α : Type} (f : Nat → α → α) :
    ∀ (l : List α) (i k : Nat), (mapWithIndexGo f i l)[k]? = l[k]?.map (f (i + k)) := by
  intro l
  induction l with
  | nil => intro i k; simp [mapWithIndexGo]
  | cons a l ih =>
    intro i k
    cases k with
    | zero => simp [mapWithIndexGo]
    | succ k2 =>
      have h2 : i + (k2 + 1) = (i + 1) + k2 := by omega
      simp only [mapWithIndexGo, List.getElem?_cons_succ, ih (i + 1) k2, h2]

theorem scaleCol_getElem? (nm : String) (c : ℝ) (seg : List (String × List ℝ)) (p : Nat) :
    (scaleCol nm c seg)[p]? =
      seg[p]?.map (fun col => if col.1 = nm then (col.1, col.2.map (fun x => x * c)) else col) :=
  List.getElem?_map _ _ _

/-- Channels whose name does not occur in the remaining channel list leave
a column untouched. -/
theorem scaleSegGo_getElem?_notmem (cs : Nat → ℝ) :
    ∀ (nms : List String) (i : Nat) (seg : List (String × List ℝ)) (p : Nat)
      (nm : String) (vs : List ℝ),
      nm ∉ nms → seg[p]? = some (nm, vs) →
      (scaleSegGo cs i nms seg)[p]? = some (nm, vs) := by
  intro nms
  induction nms with
  | nil => intro i seg p nm vs _ hp; simpa [scaleSegGo] using hp
  | cons n ns ih =>
    intro i seg p nm vs hmem hp
    have hne : nm ≠ n := fun he => hmem (by simp [he])
    have hp2 : (scaleCol n (cs i) seg)[p]? = some (nm, vs) := by
      rw [scaleCol_getElem?, hp]
      simp [hne]
    exact ih (i + 1) _ p nm vs (fun hc => hmem (by simp [hc])) hp2

/-- The channel loop of `to_fullscale` multiplies the column at position
`p`, named like channel `j` (channel names distinct), exactly by the
factor of channel `j`. -/
theorem scaleSegGo_getElem? (cs : Nat → ℝ) :
    ∀ (nms : List String) (i : Nat) (seg : List (String × List ℝ)) (j p : Nat)
      (nm : String) (vs : List ℝ),
      nms.Nodup → nms[j]? = some nm → seg[p]? = some (nm, vs) →
      (scaleSegGo cs i nms seg)[p]? = some (nm, vs.map (fun x => x * cs (i + j))) := by
  intro nms
  induction nms with
  | nil => intro i seg j p nm vs _ hj; simp at hj
  | cons n ns ih =>
    intro i seg j p nm vs hnd hj hp
    obtain ⟨hnotmem, hnd2⟩ := List.nodup_cons.mp hnd
    cases j with
    | zero =>
      simp at hj
      subst hj
      have hp2 : (scaleCol n (cs i) seg)[p]? = some (n, vs.map (fun x => x * cs i)) := by
        rw [scaleCol_getElem?, hp]
        simp
      have := scaleSegGo_getElem?_notmem cs ns (i + 1) _ p n (vs.map (fun x => x * cs i))
        hnotmem hp2
      simpa [scaleSegGo] using this
    | succ j2 =>
      simp at hj
      have hmem : nm ∈ ns := by
        obtain ⟨hlt, hget⟩ := List.getElem?_eq_some.mp hj
        exact hget ▸ List.getElem_mem hlt
      have hne : nm ≠ n := fun he => hnotmem (he ▸ hmem)
      have hp2 : (scaleCol n (cs i) seg)[p]? = some (nm, vs) := by
        rw [scaleCol_getElem?, hp]
        simp [hne]
      have h2 : i + (j2 + 1) = (i + 1) + j2 := by omega
      rw [show scaleSegGo cs i (n :: ns) seg = scaleSegGo cs (i + 1) ns (scaleCol n (cs i) seg) from rfl,
        h2]
      exact ih (i + 1) _ j2 p nm vs hnd2 hj hp2

theorem alignPos_mod (p : Nat) : alignPos p % 128 = 0 := by
  simp [alignPos, Nat.mul_mod_right]

/-- An already 128-byte-aligned offset is not advanced. -/
theorem alignPos_of_aligned (p : Nat) (h : p % 128 = 0) : alignPos p = p := by
  obtain ⟨q, hq⟩ := Nat.dvd_of_mod_eq_zero h
  subst hq
  have h127 : (127 : Nat) < 128 := by norm_num
  have : (128 * q + 127) / 128 = q := by
    rw [Nat.add_comm, Nat.add_mul_div_left 127 q (by norm_num)]
    simp [Nat.div_eq_of_lt h127]
  simp [alignPos, this]

theorem readSegFrom_ok_offset (tl : List Nat) (hpos : Nat) (r : RawSeg) (p2 : Nat)
    (h : readSegFrom tl hpos = Except.ok (r, p2)) : r.headerOffset = hpos := by
  unfold readSegFrom at h
  dsimp only at h
  split at h
  · split at h
    · split at h
      · split at h
        · cases h
        · rename_i rows hrows
          injection h with h1
          have hr := congrArg Prod.fst h1
          simp at hr
          rw [← hr]
      · cases h
    · cases h
  · cases h

theorem readSeg_ok_offset (bs : List Nat) (pos : Nat) (r : RawSeg) (p2 : Nat)
    (h : readSeg bs pos = Except.ok (r, p2)) : r.headerOffset = alignPos pos :=
  readSegFrom_ok_offset _ _ r p2 h

/-- Every raw segment produced by the segment loop has its header at an
offset produced by the aligning seek. -/
theorem readSegs_offsets (bs : List Nat) :
    ∀ (n pos : Nat) (raws : List RawSeg), readSegs bs pos n = Except.ok raws →
      ∀ r ∈ raws, r.headerOffset % 128 = 0 := by
  intro n
  induction n with
  | zero =>
    intro pos raws h r hr
    have h2 : (Except.ok ([] : List RawSeg) : Except DErr (List RawSeg)) = Except.ok raws := h
    injection h2 with h3
    subst h3
    simp at hr
  | succ n2 ih =>
    intro pos raws h r hr
    unfold readSegs at h
    split at h
    · cases h
    · rename_i r0 p2 hseg
      split at h
      · cases h
      · rename_i rest hrest
        injection h with h1
        subst h1
        rcases List.mem_cons.mp hr with he | hm
        · subst he
          rw [readSeg_ok_offset bs pos r p2 hseg]
          exact alignPos_mod pos
        · exact ih p2 rest hrest r hm

/-- The padding bytes between the current position and the aligned segment
header offset are never read: the loop iteration depends only on the
stream from the aligned offset on. -/
theorem readSeg_congr (bs bs2 : List Nat) (pos : Nat)
    (hagree : bs.drop (alignPos pos) = bs2.drop (alignPos pos)) :
    readSeg bs pos = readSeg bs2 pos := by
  unfold readSeg
  rw [hagree]

theorem processStats_ok (c : Nat) (coef : List ℚ) (r : RawSeg) (stl : List (ℚ × ℚ × ℚ × ℚ))
    (h : processStats c coef r = Except.ok stl) :
    r.segChn.toNat = c ∧
    stl = (List.range c).map (fun m =>
      (r.rawStats.getD m 0 * coef.getD m 0,
       r.rawStats.getD (c + m) 0 * coef.getD m 0,
       r.rawStats.getD (2 * c + m) 0 * coef.getD m 0,
       r.rawStats.getD (3 * c + m) 0 * coef.getD m 0)) := by
  unfold processStats at h
  split at h
  · rename_i hc
    injection h with h1
    exact ⟨hc, h1.symm⟩
  · cases h

theorem processData_ok (c : Nat) (coef : List ℚ) (fs : ℤ) (r : RawSeg)
    (rows : List (List ℚ)) (ts : List ℚ)
    (h : processData c coef fs r = Except.ok (rows, ts)) :
    ts = (List.range r.sampNum.toNat).map (fun i : ℕ => ((i : ℚ) + 1) / (fs : ℚ)) ∧
    rows = r.rawRows.map (fun row =>
      (List.range c).map (fun m => ((row.getD m 0 : ℤ) : ℚ) * coef.getD m 0)) := by
  unfold processData at h
  dsimp only at h
  split at h
  · rename_i hk
    split at h
    · injection h with h1
      have hrows := congrArg Prod.fst h1
      have hts := congrArg Prod.snd h1
      dsimp only at hrows hts
      have hnil : r.rawRows = [] := List.length_eq_zero.mp hk
      exact ⟨hts.symm, by rw [← hrows, hnil]; simp⟩
    · cases h
  · split at h
    · injection h with h1
      have hrows := congrArg Prod.fst h1
      have hts := congrArg Prod.snd h1
      dsimp only at hrows hts
      exact ⟨hts.symm, hrows.symm⟩
    · cases h

/-- Success-path inversion of the decoder: a successful decode factors
into a successful header/table read, segment loop, statistics pass and
data pass, followed by segment selection. -/
theorem skloeRead_ok_inv (bs : List Nat) (sel : Selector) (f : DecodedFile)
    (h : skloeRead bs sel = Except.ok f) :
    ∃ (ht : HeadInfo) (raws : List RawSeg) (stats : List (List (ℚ × ℚ × ℚ × ℚ)))
      (packs : List (List (List ℚ) × List ℚ)),
      readHeadTables bs = Except.ok ht ∧
      readSegs bs ht.pos ht.segN.toNat = Except.ok raws ∧
      raws.mapM (processStats ht.chN.toNat ht.chCoef) = Except.ok stats ∧
      raws.mapM (processData ht.chN.toNat ht.chCoef ht.fs) = Except.ok packs ∧
      f.chN = ht.chN ∧ f.fs = ht.fs ∧ f.chCoef = ht.chCoef ∧ f.rawSegs = raws ∧
      ((sel = Selector.all ∧ f.stats = stats ∧ f.data = packs.map (fun p => p.1) ∧
          f.times = packs.map (fun p => p.2)) ∨
        (∃ k, sel = Selector.one k ∧ k < packs.length ∧
          f.stats = [stats.getD k []] ∧
          f.data = [(packs.map (fun p => p.1)).getD k []] ∧
          f.times = [(packs.map (fun p => p.2)).getD k []])) := by
  unfold skloeRead at h
  split at h
  · cases h
  · rename_i ht hht
    split at h
    · cases h
    · rename_i raws hraws
      split at h
      · cases h
      · split at h
        · cases h
        · rename_i stats hstats
          split at h
          · cases h
          · rename_i packs hpacks
            refine ⟨ht, raws, stats, packs, hht, hraws, hstats, hpacks, ?_⟩
            cases sel with
            | all =>
              unfold applySel at h
              injection h with h1
              subst h1
              exact ⟨rfl, rfl, rfl, rfl, Or.inl ⟨rfl, rfl, rfl, rfl⟩⟩
            | one k =>
              unfold applySel at h
              dsimp only at h
              split at h
              · rename_i hk
                injection h with h1
                subst h1
                refine ⟨rfl, rfl, rfl, rfl, Or.inr ⟨k, rfl, ?_, rfl, rfl, rfl⟩⟩
                simpa using hk
              · cases h

/-
  ------------------------------------------------------------------
  Claim theorems.
  ------------------------------------------------------------------
-/

/-- C8: for every file that decodes and every segment of it, the byte
offset at which that segment's 256-byte header was read is a multiple of
128; the aligning seek does not advance an already-aligned offset; and
the padding bytes before the aligned offset are skipped by seeking, never
read — a segment-loop iteration depends only on the stream from the
aligned offset on. -/
theorem segment_headers_aligned (bs : List Nat) (sel : Selector) (f : DecodedFile)
    (n : Nat) (r : RawSeg)
    (h : skloeRead bs sel = Except.ok f) (hr : f.rawSegs[n]? = some r) :
    r.headerOffset % 128 = 0 ∧
    alignPos r.headerOffset = r.headerOffset ∧
    (∀ p : Nat, p % 128 = 0 → alignPos p = p) ∧
    (∀ (bs2 : List Nat) (pos : Nat), bs.drop (alignPos pos) = bs2.drop (alignPos pos) →
      readSeg bs pos = readSeg bs2 pos) := by
  obtain ⟨ht, raws, stats, packs, hht, hraws, hstats, hpacks, hchN, hfs, hcoef, hraw, hselc⟩ :=
    skloeRead_ok_inv bs sel f h
  have hmem : r ∈ raws := by
    rw [hraw] at hr
    obtain ⟨hlt, hget⟩ := List.getElem?_eq_some.mp hr
    exact hget ▸ List.getElem_mem hlt
  have hmod := readSegs_offsets bs ht.segN.toNat ht.pos raws hraws r hmem
  exact ⟨hmod, alignPos_of_aligned _ hmod, fun p hp => alignPos_of_aligned p hp,
    fun bs2 pos ha => readSeg_congr bs bs2 pos ha⟩

set_option maxRecDepth 100000 in
/-- Witness for C8 on the concrete example file: its one segment's header
was read at offset 384, a multiple of 128. -/
theorem segment_headers_aligned_witness :
    skloeRead exBytes Selector.all = Except.ok exVal ∧
    exVal.rawSegs[0]? = some (exVal.rawSegs.getD 0 default) ∧
    (exVal.rawSegs.getD 0 default).headerOffset % 128 = 0 := by
  have h1 : skloeRead exBytes Selector.all = Except.ok exVal := by rfl
  have h2 : exVal.rawSegs[0]? = some (exVal.rawSegs.getD 0 default) := by rfl
  exact ⟨h1, h2, (segment_headers_aligned exBytes Selector.all exVal 0 _ h1 h2).1⟩

theorem getElem?_eq_some_getD {α : Type} (l : List α) (k : Nat) (d : α) (h : k < l.length) :
    l[k]? = some (l.getD k d) := by
  simp [List.getElem?_eq_getElem h, List.getD_eq_getElem]

/-- C7: on any successful decode (success forces every segment's
channel count to equal the global channel count, since the numpy
`reshape((4, chN))` and the pandas frame construction reject a mismatch),
every statistic value (mean, std, max, min) and every sample value of
channel `m` equals the corresponding raw decoded integer/float value
multiplied by channel `m`'s coefficient — the statistics via the
transposition of the flat `(4, chN)` block. -/
theorem decoded_values_raw_times_coef (bs : List Nat) (sel : Selector) (f : DecodedFile)
    (n : Nat) (r : RawSeg) (stl : List (ℚ × ℚ × ℚ × ℚ)) (rows : List (List ℚ))
    (h : skloeRead bs sel = Except.ok f)
    (hr : f.rawSegs[srcIdx sel n]? = some r)
    (hst : f.stats[n]? = some stl)
    (hdt : f.data[n]? = some rows) :
    r.segChn.toNat = f.chN.toNat ∧
    stl = (List.range f.chN.toNat).map (fun m =>
      (r.rawStats.getD m 0 * f.chCoef.getD m 0,
       r.rawStats.getD (f.chN.toNat + m) 0 * f.chCoef.getD m 0,
       r.rawStats.getD (2 * f.chN.toNat + m) 0 * f.chCoef.getD m 0,
       r.rawStats.getD (3 * f.chN.toNat + m) 0 * f.chCoef.getD m 0)) ∧
    rows = r.rawRows.map (fun row =>
      (List.range f.chN.toNat).map (fun m => ((row.getD m 0 : ℤ) : ℚ) * f.chCoef.getD m 0)) := by
  obtain ⟨ht, raws, stats, packs, hht, hraws, hstats, hpacks, hchN, hfs, hcoef, hraw, hselc⟩ :=
    skloeRead_ok_inv bs sel f h
  obtain ⟨hstatlen, hstatpt⟩ := exceptMapM_ok _ raws stats hstats
  obtain ⟨hpacklen, hpackpt⟩ := exceptMapM_ok _ raws packs hpacks
  rw [hchN, hcoef]
  rw [hraw] at hr
  rcases hselc with ⟨hsel, hfstats, hfdata, hftimes⟩ | ⟨k, hsel, hk, hfstats, hfdata, hftimes⟩
  · subst hsel
    simp only [srcIdx] at hr
    rw [hfstats] at hst
    rw [hfdata] at hdt
    obtain ⟨pk, hpk, hpk1⟩ := Option.map_eq_some'.mp (by rw [← List.getElem?_map]; exact hdt)
    have hps := hstatpt n r stl hr hst
    have hpd := hpackpt n r pk hr hpk
    obtain ⟨hc, hstl⟩ := processStats_ok _ _ _ _ hps
    obtain ⟨hts, hrows⟩ := processData_ok _ _ _ _ pk.1 pk.2 hpd
    exact ⟨hc, hstl, by rw [← hpk1]; exact hrows⟩
  · subst hsel
    simp only [srcIdx] at hr
    rw [hfstats] at hst
    rw [hfdata] at hdt
    cases n with
    | succ n2 =>
      rw [List.getElem?_cons_succ] at hst
      simp at hst
    | zero =>
      rw [List.getElem?_cons_zero] at hst hdt
      injection hst with hstl0
      injection hdt with hrows0
      subst hstl0
      subst hrows0
      have hklt : k < stats.length := by
        rw [hstatlen, ← hpacklen]
        exact hk
      have hst2 : stats[k]? = some (stats.getD k []) := getElem?_eq_some_getD stats k [] hklt
      have hkltd : k < (packs.map (fun p => p.1)).length := by simpa using hk
      have hdt2 : (packs.map (fun p => p.1))[k]? = some ((packs.map (fun p => p.1)).getD k []) :=
        getElem?_eq_some_getD _ k [] hkltd
      obtain ⟨pk, hpk, hpk1⟩ := Option.map_eq_some'.mp (by rw [← List.getElem?_map]; exact hdt2)
      have hps := hstatpt k r (stats.getD k []) hr hst2
      have hpd := hpackpt k r pk hr hpk
      obtain ⟨hc, hstl⟩ := processStats_ok _ _ _ _ hps
      obtain ⟨hts, hrows⟩ := processData_ok _ _ _ _ pk.1 pk.2 hpd
      exact ⟨hc, hstl, by rw [← hpk1]; exact hrows⟩

set_option maxRecDepth 100000 in
/-- Witness for C7 on the concrete example file: segment 0's statistics
and samples are the raw values scaled by the coefficients [1, 2]. -/
theorem decoded_values_raw_times_coef_witness :
    skloeRead exBytes Selector.all = Except.ok exVal ∧
    exVal.stats.getD 0 [] = (List.range exVal.chN.toNat).map (fun m =>
      ((exVal.rawSegs.getD 0 default).rawStats.getD m 0 * exVal.chCoef.getD m 0,
       (exVal.rawSegs.getD 0 default).rawStats.getD (exVal.chN.toNat + m) 0 * exVal.chCoef.getD m 0,
       (exVal.rawSegs.getD 0 default).rawStats.getD (2 * exVal.chN.toNat + m) 0 * exVal.chCoef.getD m 0,
       (exVal.rawSegs.getD 0 default).rawStats.getD (3 * exVal.chN.toNat + m) 0 * exVal.chCoef.getD m 0)) ∧
    exVal.data.getD 0 [] = (exVal.rawSegs.getD 0 default).rawRows.map (fun row =>
      (List.range exVal.chN.toNat).map (fun m => ((row.getD m 0 : ℤ) : ℚ) * exVal.chCoef.getD m 0)) := by
  have h1 : skloeRead exBytes Selector.all = Except.ok exVal := by rfl
  have h2 : exVal.rawSegs[srcIdx Selector.all 0]? = some (exVal.rawSegs.getD 0 default) := by rfl
  have h3 : exVal.stats[0]? = some (exVal.stats.getD 0 []) := by rfl
  have h4 : exVal.data[0]? = some (exVal.data.getD 0 []) := by rfl
  obtain ⟨-, hstl, hrows⟩ :=
    decoded_values_raw_times_coef exBytes Selector.all exVal 0 _ _ _ h1 h2 h3 h4
  exact ⟨h1, hstl, hrows⟩

/-- C9 (amended): on any successful decode, row `i` (0-based) of a
segment's time index carries timestamp `(i + 1) / fs` seconds — the index
is `np.arange(1, samp_num + 1) / self.fs`, so the first row is stamped
`1/fs`, not `0/fs`. -/
theorem sample_timestamps (bs : List Nat) (sel : Selector) (f : DecodedFile)
    (n i : Nat) (ts : List ℚ)
    (h : skloeRead bs sel = Except.ok f)
    (htm : f.times[n]? = some ts)
    (hi : i < ts.length) :
    ts[i]? = some (((i : ℚ) + 1) / (f.fs : ℚ)) := by
  obtain ⟨ht, raws, stats, packs, hht, hraws, hstats, hpacks, hchN, hfs, hcoef, hraw, hselc⟩ :=
    skloeRead_ok_inv bs sel f h
  obtain ⟨hpacklen, hpackpt⟩ := exceptMapM_ok _ raws packs hpacks
  rw [hfs]
  have main : ∀ k2 : Nat, (packs.map (fun p => p.2))[k2]? = some ts →
      ts[i]? = some (((i : ℚ) + 1) / (ht.fs : ℚ)) := by
    intro k2 htm2
    obtain ⟨pk, hpk, hpk2⟩ := Option.map_eq_some'.mp (by rw [← List.getElem?_map]; exact htm2)
    have hklt : k2 < raws.length := by
      rw [← hpacklen]
      exact (List.getElem?_eq_some.mp hpk).1
    have hrk : raws[k2]? = some (raws.getD k2 default) := getElem?_eq_some_getD raws k2 default hklt
    have hpd := hpackpt k2 (raws.getD k2 default) pk hrk hpk
    obtain ⟨hts, hrows⟩ := processData_ok _ _ _ _ pk.1 pk.2 hpd
    rw [← hpk2, hts]
    have hilt : i < (raws.getD k2 default).sampNum.toNat := by
      rw [← hpk2, hts] at hi
      simpa using hi
    rw [List.getElem?_map, List.getElem?_range hilt]
    rfl
  rcases hselc with ⟨hsel, hfstats, hfdata, hftimes⟩ | ⟨k, hsel, hk, hfstats, hfdata, hftimes⟩
  · rw [hftimes] at htm
    exact main n htm
  · rw [hftimes] at htm
    cases n with
    | succ n2 =>
      rw [List.getElem?_cons_succ] at htm
      simp at htm
    | zero =>
      rw [List.getElem?_cons_zero] at htm
      injection htm with hts0
      have hkltd : k < (packs.map (fun p => p.2)).length := by simpa using hk
      have := getElem?_eq_some_getD (packs.map (fun p => p.2)) k [] hkltd
      rw [hts0] at this
      exact main k this

set_option maxRecDepth 100000 in
/-- Witness for C9 on the concrete example file (fs = 10): row 0 of
segment 0 is stamped (0 + 1) / 10 s. -/
theorem sample_timestamps_witness :
    skloeRead exBytes Selector.all = Except.ok exVal ∧
    exVal.times[0]? = some (exVal.times.getD 0 []) ∧
    0 < (exVal.times.getD 0 []).length ∧
    (exVal.times.getD 0 [])[0]? = some (((0 : ℚ) + 1) / (exVal.fs : ℚ)) := by
  have h1 : skloeRead exBytes Selector.all = Except.ok exVal := by rfl
  have h2 : exVal.times[0]? = some (exVal.times.getD 0 []) := by rfl
  have h3 : 0 < (exVal.times.getD 0 []).length := by decide
  exact ⟨h1, h2, h3, sample_timestamps exBytes Selector.all exVal 0 0 _ h1 h2 h3⟩

set_option maxRecDepth 100000 in
/-- C9 counterexample: in the decoded example file (fs = 10) the first
sample row (row 0) is stamped 1/10 s, not 0/10 s as the claim's
`i / samplingHz` with 0-based rows would require. -/
theorem sample_timestamps_zero_cex :
    skloeRead exBytes Selector.all = Except.ok exVal ∧
    exVal.fs = 10 ∧
    (exVal.times.getD 0 []).getD 0 0 = ((0 : ℚ) + 1) / ((10 : ℤ) : ℚ) ∧
    ((0 : ℚ) + 1) / ((10 : ℤ) : ℚ) ≠ (0 : ℚ) / ((10 : ℤ) : ℚ) := by
  refine ⟨by rfl, by rfl, by rfl, by norm_num⟩

set_option maxRecDepth 100000 in
/-- C3 (behaviour of the code at the failing input): truncating the
example file at a sample-row boundary leaves the raw read of segment 0
with only the 2 rows successfully read (fewer than
rawSampleCount − 5 = 3) and no error at that stage, but the decode as a
whole then fails with the data-shape error — the pandas DataFrame
construction rejects 2 data rows against the 3-entry
`np.arange(1, samp_num + 1) / fs` index — instead of returning the
partial segment. -/
theorem truncated_stream_decode_fails :
    skloeRead exBytesTrunc Selector.all = Except.error DErr.dataShape ∧
    (readSeg exBytesTrunc 304).toOption.map (fun x => x.1.rawRows.length) = some 2 ∧
    (readSeg exBytesTrunc 304).toOption.map (fun x => x.1.sampNum) = some 3 := by
  exact ⟨by rfl, by rfl, by rfl⟩

/-- The `self.scale == 'prototype'` guard of `to_fullscale`. -/
theorem tfGuard (f2 : OutFileState) (rho lam : ℝ) (g : ℚ)
    (h2 : f2.scale = "prototype") :
    to_fullscale f2 rho lam g = ⟨f2, false, true⟩ := by
  unfold to_fullscale
  rw [if_pos h2]

/-- C4: the `self.scale == 'prototype'` guard: every `to_fullscale` call
leaves the file in the `'prototype'` state; a call on a file already in
that state returns the state bitwise-unchanged (samples, statistics and
unit metadata included, since the whole state is returned as is) and only
reports the already-upscaled condition; hence the second of two calls is
always a no-op. -/
theorem to_fullscale_second_call_noop (f : OutFileState) (rho lam rho2 lam2 : ℝ)
    (g g2 : ℚ) :
    (to_fullscale f rho lam g).state.scale = "prototype" ∧
    (∀ f2 : OutFileState, f2.scale = "prototype" →
      to_fullscale f2 rho2 lam2 g2 = ⟨f2, false, true⟩) ∧
    to_fullscale (to_fullscale f rho lam g).state rho2 lam2 g2
      = ⟨(to_fullscale f rho lam g).state, false, true⟩ := by
  have hguard : ∀ f2 : OutFileState, f2.scale = "prototype" →
      to_fullscale f2 rho2 lam2 g2 = ⟨f2, false, true⟩ :=
    fun f2 h2 => tfGuard f2 rho2 lam2 g2 h2
  have hstate : (to_fullscale f rho lam g).state.scale = "prototype" := by
    unfold to_fullscale
    by_cases hsc : f.scale = "prototype"
    · rw [if_pos hsc]
      exact hsc
    · rw [if_neg hsc]
      dsimp only
      cases hm : f.chUnits.mapM (findtrans g) <;> rfl
  exact ⟨hstate, hguard, hguard _ hstate⟩

/-- Shared analysis of the failing branch of `to_fullscale`: the
resolution failure escapes after `self.rho` / `self.lam` /
`self.scale = 'prototype'` were set but before the channel table,
statistics or data were touched. -/
theorem tfFailState (f : OutFileState) (rho lam : ℝ) (g : ℚ)
    (h1 : f.scale ≠ "prototype")
    (h2 : f.chUnits.mapM (findtrans g) = none) :
    (to_fullscale f rho lam g).raised = true ∧
    (to_fullscale f rho lam g).state.data = f.data ∧
    (to_fullscale f rho lam g).state.stats = f.stats ∧
    (to_fullscale f rho lam g).state.chNames = f.chNames ∧
    (to_fullscale f rho lam g).state.chUnits = f.chUnits ∧
    (to_fullscale f rho lam g).state.chCoef = f.chCoef ∧
    (to_fullscale f rho lam g).state.coeffUnit = f.coeffUnit ∧
    (to_fullscale f rho lam g).state.coeffRho = f.coeffRho ∧
    (to_fullscale f rho lam g).state.coeffLam = f.coeffLam ∧
    (to_fullscale f rho lam g).state.scale = "prototype" ∧
    (to_fullscale f rho lam g).state.rhoStored = some rho ∧
    (to_fullscale f rho lam g).state.lamStored = some lam := by
  unfold to_fullscale
  rw [if_neg h1]
  dsimp only
  rw [h2]
  exact ⟨rfl, rfl, rfl, rfl, rfl, rfl, rfl, rfl, rfl, rfl, rfl, rfl⟩

/-- C2 (amended): when some channel unit is unresolvable, the call fails
(the source warns and then raises a `TypeError` at `trans_temp[0]`; there
is no dedicated exception class) and aborts before mutating any channel:
samples, statistics, channel names, units and coefficients are all
unchanged — but NOT before mutating the scale state: `self.rho`,
`self.lam` and `self.scale = 'prototype'` have already been set. -/
theorem to_fullscale_failure_preserves_channels (f : OutFileState) (rho lam : ℝ) (g : ℚ)
    (h1 : f.scale ≠ "prototype")
    (h2 : f.chUnits.mapM (findtrans g) = none) :
    (to_fullscale f rho lam g).raised = true ∧
    (to_fullscale f rho lam g).state.data = f.data ∧
    (to_fullscale f rho lam g).state.stats = f.stats ∧
    (to_fullscale f rho lam g).state.chNames = f.chNames ∧
    (to_fullscale f rho lam g).state.chUnits = f.chUnits ∧
    (to_fullscale f rho lam g).state.chCoef = f.chCoef ∧
    (to_fullscale f rho lam g).state.coeffUnit = f.coeffUnit ∧
    (to_fullscale f rho lam g).state.coeffRho = f.coeffRho ∧
    (to_fullscale f rho lam g).state.coeffLam = f.coeffLam ∧
    (to_fullscale f rho lam g).state.scale = "prototype" := by
  obtain ⟨c1, c2, c3, c4, c5, c6, c7, c8, c9, c10, -, -⟩ := tfFailState f rho lam g h1 h2
  exact ⟨c1, c2, c3, c4, c5, c6, c7, c8, c9, c10⟩

/-- A concrete model-scale file state with the unresolvable unit token
"xyz" on its only channel. -/
def fBad : OutFileState :=
  { scale := "model", rhoStored := none, lamStored := none,
    chNames := ["F"], chUnits := ["xyz"], chCoef := some [1],
    coeffUnit := none, coeffRho := none, coeffLam := none,
    segN := 1, data := [[("F", [(7 : ℝ)])]], stats := [[((5 : ℝ), 5, 5, 5)]] }

/-- C2 counterexample: on `fBad` the failing call does change the scale
state of the file — it is left at `'prototype'` although the conversion
was not applied, so "no scale state of the file is changed" is false. -/
theorem to_fullscale_failure_mutates_scale_cex :
    (to_fullscale fBad 2 3 (9807 / 1000)).raised = true ∧
    (to_fullscale fBad 2 3 (9807 / 1000)).state.scale = "prototype" ∧
    fBad.scale = "model" ∧
    (to_fullscale fBad 2 3 (9807 / 1000)).state.scale ≠ fBad.scale := by
  refine ⟨by rfl, by rfl, by rfl, ?_⟩
  have ha : (to_fullscale fBad 2 3 (9807 / 1000)).state.scale = "prototype" := by rfl
  have hb : fBad.scale = "model" := by rfl
  rw [ha, hb]
  decide

/-- Witness for C2 on `fBad`: its unit "xyz" is unresolvable and the
failing call leaves channels, samples and statistics unchanged. -/
theorem to_fullscale_failure_preserves_channels_witness :
    fBad.scale ≠ "prototype" ∧
    fBad.chUnits.mapM (findtrans (9807 / 1000)) = none ∧
    (to_fullscale fBad 2 3 (9807 / 1000)).raised = true ∧
    (to_fullscale fBad 2 3 (9807 / 1000)).state.data = fBad.data ∧
    (to_fullscale fBad 2 3 (9807 / 1000)).state.stats = fBad.stats := by
  have h1 : fBad.scale ≠ "prototype" := by decide
  have h2 : fBad.chUnits.mapM (findtrans (9807 / 1000)) = none := by decide
  obtain ⟨c1, c2, c3, -⟩ := to_fullscale_failure_preserves_channels fBad 2 3 (9807 / 1000) h1 h2
  exact ⟨h1, h2, c1, c2, c3⟩

/-- C10: `to_fullscale` sets `self.rho`, `self.lam` and
`self.scale = 'prototype'` before resolving any unit, so a failing
resolution leaves the file in the `'prototype'` state; every subsequent
call — with any parameters, and even after repairing the offending unit
with `fix_unit` — hits the guard and returns immediately without
converting anything. -/
theorem to_fullscale_failure_poisons_state (f : OutFileState) (rho lam : ℝ) (g : ℚ)
    (h1 : f.scale ≠ "prototype")
    (h2 : f.chUnits.mapM (findtrans g) = none) :
    (to_fullscale f rho lam g).raised = true ∧
    (to_fullscale f rho lam g).state.scale = "prototype" ∧
    (to_fullscale f rho lam g).state.rhoStored = some rho ∧
    (to_fullscale f rho lam g).state.lamStored = some lam ∧
    (∀ (c : Nat) (u : String) (rho2 lam2 : ℝ) (g2 : ℚ),
      to_fullscale (fix_unit (to_fullscale f rho lam g).state c u) rho2 lam2 g2
        = ⟨fix_unit (to_fullscale f rho lam g).state c u, false, true⟩) := by
  obtain ⟨c1, -, -, -, -, -, -, -, -, c10, c11, c12⟩ := tfFailState f rho lam g h1 h2
  refine ⟨c1, c10, c11, c12, ?_⟩
  intro c u rho2 lam2 g2
  have hsc : (fix_unit (to_fullscale f rho lam g).state c u).scale = "prototype" := by
    unfold fix_unit
    exact c10
  exact tfGuard _ rho2 lam2 g2 hsc

/-- Witness for C10 on `fBad`: after the failing call, even fixing the
unit to "m" and calling again converts nothing. -/
theorem to_fullscale_failure_poisons_state_witness :
    fBad.scale ≠ "prototype" ∧
    fBad.chUnits.mapM (findtrans (9807 / 1000)) = none ∧
    (to_fullscale fBad 2 3 (9807 / 1000)).state.scale = "prototype" ∧
    to_fullscale (fix_unit (to_fullscale fBad 2 3 (9807 / 1000)).state 0 "m") 4 5 (9807 / 1000)
      = ⟨fix_unit (to_fullscale fBad 2 3 (9807 / 1000)).state 0 "m", false, true⟩ := by
  have h1 : fBad.scale ≠ "prototype" := by decide
  have h2 : fBad.chUnits.mapM (findtrans (9807 / 1000)) = none := by decide
  obtain ⟨-, c10, -, -, hall⟩ := to_fullscale_failure_poisons_state fBad 2 3 (9807 / 1000) h1 h2
  exact ⟨h1, h2, c10, hall 0 "m" 4 5 (9807 / 1000)⟩

/-- C1 (amended): on the success path `to_fullscale` multiplies, in
place, every sample value of channel `j` — the data column named like
channel `j`, channel names being distinct — in every retained segment
`s < segN` by `C = C1 * rho ** C2 * lam ** C3` computed from the
channel's resolved unit; but it does NOT touch the statistics
(`self.seg_statistic`), which keep their decode-time values. -/
theorem to_fullscale_scales_samples_only (f : OutFileState) (rho lam : ℝ) (g : ℚ)
    (ts : List UTrans) (s j : Nat) (seg : List (String × List ℝ)) (nm : String) (vs : List ℝ)
    (h1 : f.scale ≠ "prototype")
    (h2 : f.chUnits.mapM (findtrans g) = some ts)
    (hnd : f.chNames.Nodup)
    (hs : s < f.segN)
    (hseg : f.data[s]? = some seg)
    (hnm : f.chNames[j]? = some nm)
    (hcol : seg[j]? = some (nm, vs)) :
    ((to_fullscale f rho lam g).state.data.getD s [])[j]?
      = some (nm, vs.map (fun x => x * Cfac rho lam (ts.getD j default))) ∧
    (to_fullscale f rho lam g).state.stats = f.stats := by
  unfold to_fullscale
  rw [if_neg h1]
  dsimp only
  rw [h2]
  dsimp only
  constructor
  · have hdata : (mapWithIndexGo
        (fun s2 seg2 => if s2 < f.segN then
          scaleSegGo (fun i => Cfac rho lam (ts.getD i default)) 0 f.chNames seg2 else seg2)
        0 f.data)[s]?
        = some (scaleSegGo (fun i => Cfac rho lam (ts.getD i default)) 0 f.chNames seg) := by
      rw [mapWithIndexGo_getElem?, hseg]
      simp [hs]
    have hgo := scaleSegGo_getElem? (fun i => Cfac rho lam (ts.getD i default))
      f.chNames 0 seg j j nm vs hnd hnm hcol
    rw [List.getD_eq_getElem?_getD, hdata]
    simpa using hgo
  · rfl

/-- A concrete model-scale file state with one channel "A" in metres,
one segment with one sample (10) and statistics (5, 5, 5, 5). -/
def fM : OutFileState :=
  { scale := "model", rhoStored := none, lamStored := none,
    chNames := ["A"], chUnits := ["m"], chCoef := some [1],
    coeffUnit := none, coeffRho := none, coeffLam := none,
    segN := 1, data := [[("A", [(10 : ℝ)])]], stats := [[((5 : ℝ), 5, 5, 5)]] }

/-- C1 counterexample: on `fM` a successful `to_fullscale` leaves the
statistics at their decode-time values (mean 5 stays 5), although the
claim requires every statistic value to be multiplied by
`C = Cfac 2 3 ("m", 1, 0, 1) = 3 ≠ 1`: the statistics are NOT scaled. -/
theorem to_fullscale_stats_not_scaled_cex :
    (to_fullscale fM 2 3 (9807 / 1000)).raised = false ∧
    (to_fullscale fM 2 3 (9807 / 1000)).state.stats = fM.stats ∧
    (((to_fullscale fM 2 3 (9807 / 1000)).state.stats.getD 0 []).getD 0 (0, 0, 0, 0)).1 = (5 : ℝ) ∧
    (5 : ℝ) ≠ Cfac 2 3 ("m", 1, 0, 1) * 5 := by
  refine ⟨by rfl, by rfl, by rfl, ?_⟩
  unfold Cfac
  dsimp only
  push_cast
  rw [Real.rpow_zero, Real.rpow_one]
  norm_num

/-- A concrete model-scale file state matching the spec's end-to-end
example after decode: channels "A" (m, coef 1) and "B" (kg, coef 2). -/
def fW : OutFileState :=
  { scale := "model", rhoStored := none, lamStored := none,
    chNames := ["A", "B"], chUnits := ["m", "kg"], chCoef := some [1, 2],
    coeffUnit := none, coeffRho := none, coeffLam := none,
    segN := 1,
    data := [[("A", [(10 : ℝ), 20]), ("B", [(5 : ℝ), 6])]],
    stats := [[((1 : ℝ), 1, 3, 0), ((4 : ℝ), 2, 8, 2)]] }

/-- The resolved units of `fW`. -/
def exTs : List UTrans := [("m", 1, 0, 1), ("kN", 9807 / 1000 * (1 / 1000), 1, 3)]

/-- Witness for C1 on `fW`: channel 1 ("B", kg) has both its samples
multiplied by its factor, and the statistics are unchanged. -/
theorem to_fullscale_scales_samples_only_witness :
    fW.scale ≠ "prototype" ∧
    fW.chUnits.mapM (findtrans (9807 / 1000)) = some exTs ∧
    fW.chNames.Nodup ∧
    ((to_fullscale fW 2 3 (9807 / 1000)).state.data.getD 0 [])[1]?
      = some ("B", [(5 : ℝ), 6].map (fun x => x * Cfac 2 3 (exTs.getD 1 default))) ∧
    (to_fullscale fW 2 3 (9807 / 1000)).state.stats = fW.stats := by
  have h1 : fW.scale ≠ "prototype" := by decide
  have h2 : fW.chUnits.mapM (findtrans (9807 / 1000)) = some exTs := by rfl
  have hnd : fW.chNames.Nodup := by decide
  have hs : 0 < fW.segN := by decide
  have hseg : fW.data[0]? = some [("A", [(10 : ℝ), 20]), ("B", [(5 : ℝ), 6])] := by rfl
  have hnm : fW.chNames[1]? = some "B" := by rfl
  have hcol : ([("A", [(10 : ℝ), 20]), ("B", [(5 : ℝ), 6])] : List (String × List ℝ))[1]?
      = some ("B", [(5 : ℝ), 6]) := by rfl
  obtain ⟨hd, hst⟩ := to_fullscale_scales_samples_only fW 2 3 (9807 / 1000) exTs 0 1 _ "B"
    [(5 : ℝ), 6] h1 h2 hnd hs hseg hnm hcol
  exact ⟨h1, h2, hnd, hd, hst⟩

/-- C5 (code behaviour at the failing token "N"): the dictionary and the
derived rules give the spec's values for "kg" (default g = 9.807),
"m/s" (division rule) and "m2" (power rule) — the companion numeric
equalities identify the unnormalized factors with the spec's decimal
values — but `resolve("N")` FAILS: every lookup lowercases the token, so
"N" becomes "n", which misses the upper-case dictionary key "N"; the
newtons entry is unreachable and resolution returns the failure
sentinel. -/
theorem resolve_dictionary_values :
    findtrans (9807 / 1000) "kg" = some ("kN", 9807 / 1000 * (1 / 1000), 1, 3) ∧
    (9807 / 1000 * (1 / 1000) : ℚ) = 9.807 * 0.001 ∧
    findtrans (9807 / 1000) "m/s" = some ("m/s", 1 / 1, 0 - 0, 1 - 1 / 2) ∧
    ((1 / 1 : ℚ) = 1 ∧ (0 - 0 : ℚ) = 0 ∧ (1 - 1 / 2 : ℚ) = 0.5) ∧
    findtrans (9807 / 1000) "m2" = some ("m2", 1 ^ 2, 0 * ((2 : ℕ) : ℚ), 1 * ((2 : ℕ) : ℚ)) ∧
    ((1 ^ 2 : ℚ) = 1 ∧ (0 * ((2 : ℕ) : ℚ) : ℚ) = 0 ∧ (1 * ((2 : ℕ) : ℚ) : ℚ) = 2) ∧
    findtrans (9807 / 1000) "N" = none ∧
    findtrans (9807 / 1000) "n" = none := by
  refine ⟨by rfl, by norm_num, by rfl, ⟨by norm_num, by norm_num, by norm_num⟩,
    by rfl, ⟨by norm_num, by norm_num, by norm_num⟩, by decide, by decide⟩

/-- C6: resolution tries the rules in the fixed order exact-dictionary
hit, division, dot-compound, power-suffix, case-insensitively: "kg" is
an exact hit; "s2" goes through the power rule on the entry for "s";
"kg/s2" resolves as the DIVISION of kg by s2 (s2 itself via the power
rule); a token containing both '/' and '.' ("m/s.s") is split at '/'
first — division is checked before dot-compounding; and "KG" resolves
exactly like "kg". -/
theorem resolve_priority_order (g : ℚ) :
    findtrans g "kg" = transDic g "kg" ∧
    findtrans g "s2" = some (combinePow ("s", 1, 0, 1 / 2) 2) ∧
    findtrans g "kg/s2"
      = some (combineDiv ("kN", g * (1 / 1000), 1, 3) (combinePow ("s", 1, 0, 1 / 2) 2)) ∧
    findtrans g "m/s.s"
      = some (combineDiv ("m", 1, 0, 1)
          (combineDot [("s", 1, 0, 1 / 2), ("s", 1, 0, 1 / 2)])) ∧
    findtrans g "KG" = findtrans g "kg" := by
  exact ⟨rfl, rfl, rfl, rfl, rfl⟩

/-- Witness for C6 at the default gravity. -/
theorem resolve_priority_order_witness :
    findtrans (9807 / 1000) "kg/s2"
      = some (combineDiv ("kN", 9807 / 1000 * (1 / 1000), 1, 3)
          (combinePow ("s", 1, 0, 1 / 2) 2)) :=
  (resolve_priority_order (9807 / 1000)).2.2.1

/-- Witness for C4 on the concrete state `fM`: the second call is a
no-op that returns the first call's state unchanged. -/
theorem to_fullscale_second_call_noop_witness :
    to_fullscale (to_fullscale fM 2 3 (9807 / 1000)).state 4 5 (9807 / 1000)
      = ⟨(to_fullscale fM 2 3 (9807 / 1000)).state, false, true⟩ :=
  (to_fullscale_second_call_noop fM 2 3 4 5 (9807 / 1000) (9807 / 1000)).2.2
